import Mathlib

/-!
Verification of the median stopping rule scheduler
(`syne_tune/optimizer/schedulers/median_stopping_rule.py`).

The development embeds the class `MedianStoppingRule` shallowly:

* reported results become association lists from metric names to rational
  values (`Result`);
* the wrapped scheduler (`TrialScheduler` base class, only its interface is
  exercised by the wrapper) becomes a record of its operations over an
  abstract internal state type `σ`;
* the mutable wrapper object becomes an explicit state record
  (`MedianStoppingRule`), and `on_trial_result` becomes a function from a
  state and a report to an `Option` of a step output (`none` models a
  `KeyError` on a missing metric or resource key);
* `np.searchsorted` (side "left") and `np.insert` become `searchsorted` and
  `insertAt`; `np.mean` becomes `listMean`.

Machine floats of the source are modelled by `ℚ`.
-/

namespace SyneTune

/-- Decision constants returned by a scheduler's `on_trial_result`.
Modelled from the spec: the class `SchedulerDecision` of
`syne_tune/optimizer/scheduler.py` is not under `src/`; per spec §3 a
decision is one of CONTINUE, STOP, PAUSE. -/
inductive SchedulerDecision where
  | CONTINUE
  | PAUSE
  | STOP
deriving DecidableEq, Repr

/-- A trial; only its identifier is read by the median stopping rule. -/
structure Trial where
  trial_id : Nat
deriving DecidableEq, Repr

/-- A suggestion returned by a scheduler; opaque to the wrapper, which only
passes it through. -/
structure TrialSuggestion where
  config : List (String × ℚ)
deriving DecidableEq, Repr

/-- A reported result: a mapping from metric names to numeric values
(`result: Dict` in the source). -/
abbrev Result := List (String × ℚ)

/-- Dictionary lookup `result[key]`: `some` of the first binding of `key`,
`none` when the key is missing (a `KeyError` in Python). -/
def Result.get (r : Result) (k : String) : Option ℚ :=
  match r with
  | [] => none
  | (k0, v) :: rest => if k0 = k then some v else Result.get rest k

/-- The interface of the wrapped scheduler (base class `TrialScheduler`),
over an abstract internal state `σ`.  `metricAttr` models
`hasattr(scheduler, "metric")` / `getattr(scheduler, "metric")`:
`some m` when the attribute exists with value `m`. -/
structure TrialScheduler (σ : Type) where
  _suggest : σ → Nat → Option TrialSuggestion
  on_trial_result : σ → Nat → Result → SchedulerDecision × σ
  metric_names : σ → List String
  metric_mode : σ → String
  metricAttr : Option String

/-- The state of a `MedianStoppingRule` object.  Field names follow the
source.  `sorted_results` and `trial_to_results` model the two
`defaultdict(list)` attributes (default value `[]`); `schedState` carries
the wrapped scheduler's internal state. -/
structure MedianStoppingRule (σ : Type) where
  scheduler : TrialScheduler σ
  schedState : σ
  metric : Option String
  sorted_results : ℚ → List ℚ
  resource_attr : String
  rank_cutoff : ℚ
  grace_time : Option ℚ
  min_samples_required : Option Nat
  running_average : Bool
  trial_to_results : Nat → List ℚ
  mode : String

/-- `MedianStoppingRule.__init__`: resolves `metric` from the wrapped
scheduler when not given and the attribute exists, stores the remaining
parameters unchanged (the source performs no validation), and mirrors the
wrapped scheduler's `metric_mode()`. -/
def MedianStoppingRule.init {σ : Type} (scheduler : TrialScheduler σ) (st : σ)
    (resource_attr : String) (running_average : Bool) (metric : Option String)
    (grace_time : Option ℚ) (grace_population : Option Nat)
    (rank_cutoff : ℚ) : MedianStoppingRule σ :=
  let metric := match metric with
    | some m => some m
    | none => scheduler.metricAttr
  { scheduler := scheduler
    schedState := st
    metric := metric
    sorted_results := fun _ => []
    resource_attr := resource_attr
    rank_cutoff := rank_cutoff
    grace_time := grace_time
    min_samples_required := grace_population
    running_average := running_average
    trial_to_results := fun _ => []
    mode := scheduler.metric_mode st }

/-- `np.mean` of a list of values. -/
def listMean (l : List ℚ) : ℚ := l.sum / l.length

/-- `np.searchsorted(a, v)` with the default side "left" on an ascending
array: the leftmost insertion index, i.e. the length of the longest prefix
of elements strictly below `v`. -/
def searchsorted (l : List ℚ) (v : ℚ) : Nat :=
  match l with
  | [] => 0
  | x :: rest => if x < v then searchsorted rest v + 1 else 0

/-- `np.insert(a, i, v)`: insert `v` at position `i`. -/
def insertAt (l : List ℚ) (i : Nat) (v : ℚ) : List ℚ :=
  l.take i ++ v :: l.drop i

/-- The sign adjustment of step 1 of `on_trial_result`:
`if self.mode == "max": new_metric *= -1`. -/
def signAdjust (mode : String) (v : ℚ) : ℚ :=
  if mode = "max" then -v else v

/-- The value fed to the sorted insertion for trial `tid` when the
sign-adjusted raw observation is `m1`: the running mean of the trial's
history extended by `m1` when `running_average` is set, the raw value
otherwise (lines 95–98 of the source). -/
def MedianStoppingRule.effectiveValue {σ : Type} (s : MedianStoppingRule σ)
    (tid : Nat) (m1 : ℚ) : ℚ :=
  if s.running_average then listMean (s.trial_to_results tid ++ [m1]) else m1

/-- `MedianStoppingRule.grace_condition` (lines 120–132): continue
unconditionally when fewer than `min_samples_required` observations are
recorded at this resource level (the list length is read after the current
observation has been inserted by `on_trial_result`), or when `time_step`
is below `grace_time`; the `is not None` guards are the `Option` matches. -/
def MedianStoppingRule.grace_condition {σ : Type} (s : MedianStoppingRule σ)
    (time_step : ℚ) : Bool :=
  (match s.min_samples_required with
   | some m => decide ((s.sorted_results time_step).length < m)
   | none => false) ||
  (match s.grace_time with
   | some g => decide (time_step < g)
   | none => false)

/-- The output of one `on_trial_result` call.  `decision` is the returned
string; `state` the mutated wrapper object; `index`, `rank` and `value`
expose the source's locals `index`, `normalized_rank` and `new_metric`;
`delegated` records the `result` dictionary passed to the wrapped
scheduler's `on_trial_result`, `none` when that call is not made. -/
structure StepOutput (σ : Type) where
  decision : SchedulerDecision
  state : MedianStoppingRule σ
  index : Nat
  rank : ℚ
  value : ℚ
  delegated : Option Result

/-- The source's local `new_metric` after sign adjustment and optional
running averaging (lines 90–98): the value actually inserted. -/
def stepValue {σ : Type} (s : MedianStoppingRule σ) (t : Trial) (m0 : ℚ) : ℚ :=
  s.effectiveValue t.trial_id (signAdjust s.mode m0)

/-- The source's local `index`:
`np.searchsorted(self.sorted_results[time_step], new_metric)` (line 101). -/
def stepIndex {σ : Type} (s : MedianStoppingRule σ) (t : Trial) (m0 ts : ℚ) :
    Nat :=
  searchsorted (s.sorted_results ts) (stepValue s t m0)

/-- The level list after `np.insert` of the new value (lines 102–104). -/
def stepLevel {σ : Type} (s : MedianStoppingRule σ) (t : Trial) (m0 ts : ℚ) :
    List ℚ :=
  insertAt (s.sorted_results ts) (stepIndex s t m0 ts) (stepValue s t m0)

/-- The source's local
`normalized_rank = index / float(len(self.sorted_results[time_step]))`,
read after the insertion (line 105). -/
def stepRank {σ : Type} (s : MedianStoppingRule σ) (t : Trial) (m0 ts : ℚ) :
    ℚ :=
  (stepIndex s t m0 ts : ℚ) / ((stepLevel s t m0 ts).length : ℚ)

/-- The wrapper state after the two mutations of `on_trial_result`: the
append to `trial_to_results` (line 97, only with `running_average`) and the
insertion into `sorted_results[time_step]` (lines 102–104). -/
def postState {σ : Type} (s : MedianStoppingRule σ) (t : Trial) (m0 ts : ℚ) :
    MedianStoppingRule σ :=
  { s with
    trial_to_results :=
      if s.running_average then
        Function.update s.trial_to_results t.trial_id
          (s.trial_to_results t.trial_id ++ [signAdjust s.mode m0])
      else s.trial_to_results
    sorted_results := Function.update s.sorted_results ts (stepLevel s t m0 ts) }

/-- The branch condition of lines 107–110:
`self.grace_condition(time_step) or normalized_rank <= self.rank_cutoff`,
evaluated on the state that already holds the new observation. -/
def stepCont {σ : Type} (s : MedianStoppingRule σ) (t : Trial) (m0 ts : ℚ) :
    Bool :=
  (postState s t m0 ts).grace_condition ts ||
    decide (stepRank s t m0 ts ≤ s.rank_cutoff)

/-- The pure part of `on_trial_result` once the metric value `m0` and the
resource level `ts` have been read from the result dictionary: sign
adjustment, optional running average, sorted insertion, normalized rank,
and the grace-or-rank branch (lines 91–118 of the source). -/
def stepCore {σ : Type} (s : MedianStoppingRule σ) (t : Trial) (r : Result)
    (m0 ts : ℚ) : StepOutput σ :=
  if stepCont s t m0 ts then
    let p := s.scheduler.on_trial_result s.schedState t.trial_id r
    { decision := p.1, state := { postState s t m0 ts with schedState := p.2 },
      index := stepIndex s t m0 ts, rank := stepRank s t m0 ts,
      value := stepValue s t m0, delegated := some r }
  else
    { decision := SchedulerDecision.STOP, state := postState s t m0 ts,
      index := stepIndex s t m0 ts, rank := stepRank s t m0 ts,
      value := stepValue s t m0, delegated := none }

/-- `MedianStoppingRule.on_trial_result` (lines 89–118): read
`result[self.metric]` and `result[self.resource_attr]` (`none` models the
`KeyError` on a missing key, including an unresolved `self.metric`), then
run the pure step. -/
def MedianStoppingRule.on_trial_result {σ : Type} (s : MedianStoppingRule σ)
    (trial : Trial) (result : Result) : Option (StepOutput σ) := do
  let key ← s.metric
  let m0 ← result.get key
  let ts ← result.get s.resource_attr
  some (stepCore s trial result m0 ts)

/-- `MedianStoppingRule._suggest` (lines 86–87): plain delegation. -/
def MedianStoppingRule._suggest {σ : Type} (s : MedianStoppingRule σ)
    (trial_id : Nat) : Option TrialSuggestion :=
  s.scheduler._suggest s.schedState trial_id

/-- `MedianStoppingRule.metric_names` (lines 134–135): plain delegation. -/
def MedianStoppingRule.metric_names {σ : Type} (s : MedianStoppingRule σ) :
    List String :=
  s.scheduler.metric_names s.schedState

/-- `MedianStoppingRule.metric_mode` (lines 137–138): plain delegation. -/
def MedianStoppingRule.metric_mode {σ : Type} (s : MedianStoppingRule σ) :
    String :=
  s.scheduler.metric_mode s.schedState

/-- Run a sequence of reports through `on_trial_result`, returning the final
wrapper state; aborts (`none`) as soon as one call raises. -/
def runFold {σ : Type} (s : MedianStoppingRule σ) :
    List (Trial × Result) → Option (MedianStoppingRule σ)
  | [] => some s
  | (t, r) :: rest => do
    let o ← s.on_trial_result t r
    runFold o.state rest

/-- Run a sequence of reports through `on_trial_result`, returning every
step output together with the final wrapper state. -/
def runOutputs {σ : Type} (s : MedianStoppingRule σ) :
    List (Trial × Result) → Option (List (StepOutput σ) × MedianStoppingRule σ)
  | [] => some ([], s)
  | (t, r) :: rest => do
    let o ← s.on_trial_result t r
    let p ← runOutputs o.state rest
    some (o :: p.1, p.2)

/-- A stateless wrapped scheduler returning a fixed decision, used for
concrete runs. -/
def constSched (mode : String) (metricAttr : Option String)
    (d : SchedulerDecision) : TrialScheduler Unit :=
  { _suggest := fun _ _ => none
    on_trial_result := fun st _ _ => (d, st)
    metric_names := fun _ => []
    metric_mode := fun _ => mode
    metricAttr := metricAttr }

/-- A report `{metric: v, epoch: ts}` with metric key `"m"` and resource
key `"epoch"`. -/
def rep (v ts : ℚ) : Result := [("m", v), ("epoch", ts)]

/-- Inserting `n` values one at a time through the searchsorted-plus-insert
procedure of `on_trial_result`, starting from the empty level. -/
def foldInsert (vs : List ℚ) : List ℚ :=
  vs.foldl (fun acc v => insertAt acc (searchsorted acc v) v) []

/-! ### Lookup helpers for concrete runs -/

lemma rep_get_m (v ts : ℚ) : Result.get (rep v ts) "m" = some v := rfl

lemma rep_get_epoch (v ts : ℚ) : Result.get (rep v ts) "epoch" = some ts := rfl

lemma signAdjust_min (v : ℚ) : signAdjust "min" v = v := by
  rw [signAdjust, if_neg (by decide)]

lemma signAdjust_max (v : ℚ) : signAdjust "max" v = -v := rfl

lemma listMean_singleton (v : ℚ) : listMean [v] = v := by
  simp [listMean]

/-! ### The searchsorted insertion is the ordered insertion -/

/-- The source's `np.searchsorted` + `np.insert` pair coincides with
ordered insertion. -/
lemma insertAt_searchsorted_eq_orderedInsert (v : ℚ) (l : List ℚ) :
    insertAt l (searchsorted l v) v = List.orderedInsert (· ≤ ·) v l := by
  induction l with
  | nil => rfl
  | cons b tl ih =>
    by_cases h : b < v
    · rw [searchsorted, if_pos h]
      simp only [insertAt, List.take_succ_cons, List.drop_succ_cons,
        List.cons_append, List.orderedInsert, if_neg (not_le.mpr h)]
      rw [← ih]
      rfl
    · rw [searchsorted, if_neg h]
      simp only [insertAt, List.take_zero, List.drop_zero, List.nil_append,
        List.orderedInsert, if_pos (not_lt.mp h)]

/-- Sorted insertion preserves ascending order. -/
lemma sorted_insertAt_searchsorted {l : List ℚ} (v : ℚ)
    (h : l.Sorted (· ≤ ·)) :
    (insertAt l (searchsorted l v) v).Sorted (· ≤ ·) := by
  rw [insertAt_searchsorted_eq_orderedInsert]
  exact List.Sorted.orderedInsert v l h

/-- Sorted insertion only adds the new value. -/
lemma perm_insertAt_searchsorted (v : ℚ) (l : List ℚ) :
    List.Perm (insertAt l (searchsorted l v) v) (v :: l) := by
  rw [insertAt_searchsorted_eq_orderedInsert]
  exact List.perm_orderedInsert _ v l

lemma foldl_insert_sorted (vs : List ℚ) :
    ∀ acc : List ℚ, acc.Sorted (· ≤ ·) →
      (vs.foldl (fun a v => insertAt a (searchsorted a v) v) acc).Sorted (· ≤ ·) := by
  induction vs with
  | nil => intro acc h; exact h
  | cons v tl ih =>
    intro acc h
    exact ih _ (sorted_insertAt_searchsorted v h)

lemma foldl_insert_perm (vs : List ℚ) :
    ∀ acc : List ℚ,
      List.Perm (vs.foldl (fun a v => insertAt a (searchsorted a v) v) acc)
        (acc ++ vs) := by
  induction vs with
  | nil => intro acc; simp
  | cons v tl ih =>
    intro acc
    exact (ih _).trans
      (((perm_insertAt_searchsorted v acc).append_right tl).trans
        List.perm_middle.symm)

/-- Inserting values one at a time yields the sorted arrangement of all of
them at once. -/
lemma foldInsert_eq_insertionSort (vs : List ℚ) :
    foldInsert vs = List.insertionSort (· ≤ ·) vs := by
  exact List.eq_of_perm_of_sorted
    ((foldl_insert_perm vs []).trans ((List.perm_insertionSort (· ≤ ·) vs).symm))
    (foldl_insert_sorted vs [] List.sorted_nil)
    (List.sorted_insertionSort (· ≤ ·) vs)

/-- A value below every recorded element is inserted at the front. -/
lemma searchsorted_eq_zero_of_forall_lt {l : List ℚ} {v : ℚ}
    (h : ∀ w ∈ l, v < w) : searchsorted l v = 0 := by
  cases l with
  | nil => rfl
  | cons b tl =>
    rw [searchsorted, if_neg]
    exact not_lt.mpr (le_of_lt (h b (List.mem_cons_self b tl)))

/-! ### Characterization of one `on_trial_result` call -/

/-- When both dictionary reads succeed, `on_trial_result` returns the pure
step. -/
lemma on_trial_result_eq_some {σ : Type} (s : MedianStoppingRule σ)
    (t : Trial) (r : Result) {key : String} {m0 ts : ℚ}
    (hk : s.metric = some key) (hm : r.get key = some m0)
    (ht : r.get s.resource_attr = some ts) :
    s.on_trial_result t r = some (stepCore s t r m0 ts) := by
  simp [MedianStoppingRule.on_trial_result, hk, hm, ht]

/-- Conversely, a successful call determines the two reads and the pure
step. -/
lemma on_trial_result_some_inv {σ : Type} {s : MedianStoppingRule σ}
    {t : Trial} {r : Result} {o : StepOutput σ}
    (h : s.on_trial_result t r = some o) :
    ∃ key m0 ts, s.metric = some key ∧ r.get key = some m0 ∧
      r.get s.resource_attr = some ts ∧ o = stepCore s t r m0 ts := by
  cases hk : s.metric with
  | none => simp [MedianStoppingRule.on_trial_result, hk] at h
  | some key =>
    cases hm : r.get key with
    | none => simp [MedianStoppingRule.on_trial_result, hk, hm] at h
    | some m0 =>
      cases ht : r.get s.resource_attr with
      | none => simp [MedianStoppingRule.on_trial_result, hk, hm, ht] at h
      | some ts =>
        have h2 := on_trial_result_eq_some s t r hk hm ht
        rw [h] at h2
        exact ⟨key, m0, ts, rfl, hm, rfl, Option.some_inj.mp h2⟩

/-! ### C1 -/

/-- C1.  For every `on_trial_result` call that succeeds, when the grace
condition holds on the state after recording the observation (fewer than
`grace_population` recorded observations at the reported resource level, or
the resource value below `grace_time`), or the computed normalized rank is
at most `rank_cutoff`, the returned decision is exactly the wrapped
scheduler's `on_trial_result` decision (and its state advances); otherwise
the decision is `STOP`, the wrapped scheduler is not invoked (`delegated`
is `none`) and its state is untouched. -/
theorem median_stop_or_delegate {σ : Type} (s : MedianStoppingRule σ)
    (t : Trial) (r : Result) (key : String) (m0 ts : ℚ) (o : StepOutput σ)
    (hk : s.metric = some key) (hm : r.get key = some m0)
    (ht : r.get s.resource_attr = some ts)
    (h : s.on_trial_result t r = some o) :
    (o.state.grace_condition ts = true ∨ o.rank ≤ s.rank_cutoff →
      o.decision = (s.scheduler.on_trial_result s.schedState t.trial_id r).1 ∧
      o.state.schedState = (s.scheduler.on_trial_result s.schedState t.trial_id r).2 ∧
      o.delegated = some r) ∧
    (o.state.grace_condition ts = false ∧ ¬ o.rank ≤ s.rank_cutoff →
      o.decision = SchedulerDecision.STOP ∧ o.delegated = none ∧
      o.state.schedState = s.schedState) := by
  have h2 := on_trial_result_eq_some s t r hk hm ht
  rw [h] at h2
  have ho : o = stepCore s t r m0 ts := Option.some_inj.mp h2
  subst ho
  cases hb : stepCont s t m0 ts with
  | true =>
    rw [stepCore, if_pos hb]
    refine ⟨fun _ => ⟨rfl, rfl, rfl⟩, fun hfalse => ?_⟩
    rw [stepCont, Bool.or_eq_true] at hb
    rcases hb with hg | hr
    · have hg2 : (postState s t m0 ts).grace_condition ts = false := hfalse.1
      rw [hg2] at hg
      cases hg
    · have hr2 : ¬ stepRank s t m0 ts ≤ s.rank_cutoff := hfalse.2
      exact absurd (of_decide_eq_true hr) hr2
  | false =>
    rw [stepCore, if_neg (by rw [hb]; exact Bool.false_ne_true)]
    refine ⟨fun htrue => ?_, fun _ => ⟨rfl, rfl, rfl⟩⟩
    rw [stepCont, Bool.or_eq_false_iff] at hb
    rcases htrue with hg | hr
    · have hg2 : (postState s t m0 ts).grace_condition ts = true := hg
      rw [hg2] at hb
      cases hb.1
    · have hr2 : stepRank s t m0 ts ≤ s.rank_cutoff := hr
      rw [decide_eq_false_iff_not] at hb
      exact absurd hr2 hb.2

/-- Concrete wrapper state for single-step witnesses: mode "min", no
running average, metric "m", resource key "epoch", grace time 1, grace
population 5, cutoff 1/2, wrapped decision PAUSE. -/
def c1s : MedianStoppingRule Unit :=
  MedianStoppingRule.init (constSched "min" (some "m") SchedulerDecision.PAUSE)
    () "epoch" false (some "m") (some 1) (some 5) (1/2)

/-- The step output of `c1s` on trial 1 reporting metric 10 at level 2. -/
def c1o : StepOutput Unit := stepCore c1s ⟨1⟩ (rep 10 2) 10 2

/-- C1 witness: the characterization applied to a concrete call. -/
theorem median_stop_or_delegate_witness :
    c1s.on_trial_result ⟨1⟩ (rep 10 2) = some c1o ∧
    ((c1o.state.grace_condition 2 = true ∨ c1o.rank ≤ c1s.rank_cutoff →
      c1o.decision = (c1s.scheduler.on_trial_result c1s.schedState 1 (rep 10 2)).1 ∧
      c1o.state.schedState = (c1s.scheduler.on_trial_result c1s.schedState 1 (rep 10 2)).2 ∧
      c1o.delegated = some (rep 10 2)) ∧
    (c1o.state.grace_condition 2 = false ∧ ¬ c1o.rank ≤ c1s.rank_cutoff →
      c1o.decision = SchedulerDecision.STOP ∧ c1o.delegated = none ∧
      c1o.state.schedState = c1s.schedState)) :=
  ⟨rfl, median_stop_or_delegate c1s ⟨1⟩ (rep 10 2) "m" 10 2 c1o rfl rfl rfl rfl⟩

end SyneTune

namespace SyneTune

/-! ### C6 -/

/-- C6.  `_suggest`, `metric_names` and `metric_mode` of the wrapper return
exactly what the wrapped scheduler's corresponding operations return on its
current state, for every trial id and every wrapper state. -/
theorem median_passthrough {σ : Type} (s : MedianStoppingRule σ) (tid : Nat) :
    s._suggest tid = s.scheduler._suggest s.schedState tid ∧
    s.metric_names = s.scheduler.metric_names s.schedState ∧
    s.metric_mode = s.scheduler.metric_mode s.schedState :=
  ⟨rfl, rfl, rfl⟩

/-! ### C8 -/

/-- C8 counterexample: `rank_cutoff = 2` lies outside `(0, 1]`, yet
construction completes normally and stores the value unchanged — no
configuration error is signalled (`__init__` has no validation code). -/
theorem rank_cutoff_silently_accepted :
    ¬ ((2:ℚ) ≤ 1) ∧
    (MedianStoppingRule.init (constSched "min" (some "m") SchedulerDecision.PAUSE)
      () "epoch" true (some "m") (some 1) (some 5) 2).rank_cutoff = 2 :=
  ⟨by norm_num, rfl⟩

/-- C8 (amended): `__init__` stores any supplied `rank_cutoff` unvalidated;
values outside `(0, 1]` are silently accepted. -/
theorem rank_cutoff_stored_unvalidated {σ : Type} (sched : TrialScheduler σ)
    (st : σ) (attr : String) (ra : Bool) (metric : Option String)
    (gt : Option ℚ) (gp : Option Nat) (c : ℚ) :
    (MedianStoppingRule.init sched st attr ra metric gt gp c).rank_cutoff = c :=
  rfl

/-! ### C7 -/

/-- C7 counterexample: with `metric=None` and a wrapped scheduler without a
`metric` attribute, construction completes normally with `self.metric`
unresolved (`none`) — no configuration error is signalled. -/
theorem metric_unresolved_no_error :
    (MedianStoppingRule.init (constSched "min" none SchedulerDecision.PAUSE)
      () "epoch" true none (some 1) (some 5) (1/2)).metric = none :=
  rfl

/-- C7 (amended): `metric=None` resolves to the wrapped scheduler's
`metric` attribute when that attribute exists; when it does not,
`self.metric` is left unresolved (`none`) without any error at
construction time; an explicit metric is stored unchanged. -/
theorem metric_resolution {σ : Type} (sched : TrialScheduler σ) (st : σ)
    (attr : String) (ra : Bool) (gt : Option ℚ) (gp : Option Nat) (c : ℚ) :
    (∀ m, sched.metricAttr = some m →
      (MedianStoppingRule.init sched st attr ra none gt gp c).metric = some m) ∧
    (sched.metricAttr = none →
      (MedianStoppingRule.init sched st attr ra none gt gp c).metric = none) ∧
    (∀ m, (MedianStoppingRule.init sched st attr ra (some m) gt gp c).metric
      = some m) :=
  ⟨fun _ hm => hm, fun hn => hn, fun _ => rfl⟩

/-- C7 witness: the spec's scenario — a wrapped scheduler whose `metric`
attribute is "accuracy" and whose `metric_mode()` is "max"; the wrapper is
built with `metric=None` and resolves `self.metric = "accuracy"`. -/
theorem metric_resolution_witness :
    (constSched "max" (some "accuracy") SchedulerDecision.CONTINUE).metricAttr
      = some "accuracy" ∧
    (MedianStoppingRule.init
      (constSched "max" (some "accuracy") SchedulerDecision.CONTINUE) ()
      "epoch" true none (some 1) (some 5) (1/2)).metric = some "accuracy" ∧
    (MedianStoppingRule.init
      (constSched "max" (some "accuracy") SchedulerDecision.CONTINUE) ()
      "epoch" true none (some 1) (some 5) (1/2)).mode = "max" :=
  ⟨rfl,
   (metric_resolution (constSched "max" (some "accuracy") SchedulerDecision.CONTINUE)
     () "epoch" true (some 1) (some 5) (1/2)).1 "accuracy" rfl,
   rfl⟩

end SyneTune

namespace SyneTune

/-! ### C2 -/

/-- Wrapper over a PAUSE-returning scheduler, mode "min", metric "m",
resource key "epoch", grace time 1, grace population 5, cutoff 1/2, with
`running_average` as given (the scenario of spec §8). -/
def c2State (ra : Bool) : MedianStoppingRule Unit :=
  MedianStoppingRule.init (constSched "min" (some "m") SchedulerDecision.PAUSE)
    () "epoch" ra (some "m") (some 1) (some 5) (1/2)

/-- Five distinct trials report value 10 at level 2, then a sixth trial
reports 20 at level 2 (every report is its trial's first). -/
def c2Reports : List (Trial × Result) :=
  [(⟨1⟩, rep 10 2), (⟨2⟩, rep 10 2), (⟨3⟩, rep 10 2), (⟨4⟩, rep 10 2),
   (⟨5⟩, rep 10 2), (⟨6⟩, rep 20 2)]

set_option maxHeartbeats 4000000 in
/-- C2.  In the §8 scenario (for both settings of `running_average`): the
first five calls return the wrapped scheduler's decision (PAUSE); the value
20 of the sixth call is inserted at index 5 into a sequence of final length
6 (final level list `[10,10,10,10,10,20]`); its normalized rank is `5/6`,
which exceeds the cutoff `1/2`; the grace condition — evaluated on the
sequence length after inserting the current value, so the current trial
counts toward its own grace population — already fails at the fifth call
and at the sixth; the sixth call returns STOP. -/
theorem median_scenario_six_trials (ra : Bool) :
    (runOutputs (c2State ra) c2Reports).map
        (fun p => (p.1.map StepOutput.decision, p.1.map StepOutput.index,
                   p.1.map StepOutput.rank,
                   p.1.map (fun o => o.state.grace_condition 2),
                   p.2.sorted_results 2)) =
      some ([SchedulerDecision.PAUSE, SchedulerDecision.PAUSE, SchedulerDecision.PAUSE,
             SchedulerDecision.PAUSE, SchedulerDecision.PAUSE, SchedulerDecision.STOP],
            [0, 0, 0, 0, 0, 5],
            [0, 0, 0, 0, 0, 5/6],
            [true, true, true, true, false, false],
            [10, 10, 10, 10, 10, 20]) ∧
    ¬ ((5:ℚ)/6 ≤ 1/2) := by
  constructor
  · cases ra <;>
      norm_num only [runOutputs, MedianStoppingRule.on_trial_result, c2State, c2Reports,
        MedianStoppingRule.init, stepCore, stepCont, postState, stepIndex, stepLevel,
        stepRank, stepValue, signAdjust_min, rep_get_m, rep_get_epoch, constSched,
        searchsorted, insertAt, MedianStoppingRule.effectiveValue,
        MedianStoppingRule.grace_condition, Function.update_same, Function.update_noteq,
        listMean, Option.bind_eq_bind, Option.some_bind, Option.map_some',
        List.take_succ_cons, List.take_zero, List.drop_succ_cons, List.drop_zero,
        List.cons_append, List.nil_append, List.length_cons, List.length_nil,
        List.sum_cons, List.sum_nil, List.map_cons, List.map_nil,
        Bool.or_eq_true, decide_eq_true_eq, if_true, if_false, or_true, true_or,
        Bool.false_eq_true, Bool.true_eq_false, eq_self_iff_true,
        decide_True, decide_False, Bool.or_true, Bool.true_or, Bool.or_false, Bool.false_or,
        false_or, or_false, ite_self, Nat.cast_ofNat, Nat.cast_one, Nat.cast_zero]
  · norm_num

end SyneTune

namespace SyneTune

/-! ### Step projection lemmas -/

lemma stepCore_state_sorted_results {σ : Type} (s : MedianStoppingRule σ)
    (t : Trial) (r : Result) (m0 ts : ℚ) :
    (stepCore s t r m0 ts).state.sorted_results =
      Function.update s.sorted_results ts (stepLevel s t m0 ts) := by
  rw [stepCore]; split <;> rfl

lemma stepCore_state_trial_to_results {σ : Type} (s : MedianStoppingRule σ)
    (t : Trial) (r : Result) (m0 ts : ℚ) :
    (stepCore s t r m0 ts).state.trial_to_results =
      (if s.running_average then
        Function.update s.trial_to_results t.trial_id
          (s.trial_to_results t.trial_id ++ [signAdjust s.mode m0])
      else s.trial_to_results) := by
  rw [stepCore]; split <;> rfl

lemma stepCore_value {σ : Type} (s : MedianStoppingRule σ)
    (t : Trial) (r : Result) (m0 ts : ℚ) :
    (stepCore s t r m0 ts).value = stepValue s t m0 := by
  rw [stepCore]; split <;> rfl

/-- The step does not touch the configuration fields of the wrapper. -/
lemma stepCore_config {σ : Type} (s : MedianStoppingRule σ)
    (t : Trial) (r : Result) (m0 ts : ℚ) :
    (stepCore s t r m0 ts).state.metric = s.metric ∧
    (stepCore s t r m0 ts).state.mode = s.mode ∧
    (stepCore s t r m0 ts).state.resource_attr = s.resource_attr ∧
    (stepCore s t r m0 ts).state.running_average = s.running_average ∧
    (stepCore s t r m0 ts).state.rank_cutoff = s.rank_cutoff ∧
    (stepCore s t r m0 ts).state.grace_time = s.grace_time ∧
    (stepCore s t r m0 ts).state.min_samples_required = s.min_samples_required ∧
    (stepCore s t r m0 ts).state.scheduler = s.scheduler := by
  rw [stepCore]; split <;> exact ⟨rfl, rfl, rfl, rfl, rfl, rfl, rfl, rfl⟩

/-- A step keeps every level list sorted. -/
lemma step_preserves_sorted {σ : Type} {s : MedianStoppingRule σ}
    {t : Trial} {r : Result} {o : StepOutput σ}
    (hinv : ∀ lvl, (s.sorted_results lvl).Sorted (· ≤ ·))
    (h : s.on_trial_result t r = some o) :
    ∀ lvl, (o.state.sorted_results lvl).Sorted (· ≤ ·) := by
  obtain ⟨key, m0, ts, hk, hm, ht, ho⟩ := on_trial_result_some_inv h
  subst ho
  intro lvl
  rw [stepCore_state_sorted_results]
  by_cases hl : lvl = ts
  · subst hl
    rw [Function.update_same]
    simp only [stepLevel, stepIndex]
    exact sorted_insertAt_searchsorted (stepValue s t m0) (hinv lvl)
  · rw [Function.update_noteq hl]
    exact hinv lvl

/-- A whole run keeps every level list sorted. -/
lemma runFold_preserves_sorted {σ : Type} :
    ∀ (reports : List (Trial × Result)) (s s' : MedianStoppingRule σ),
      (∀ lvl, (s.sorted_results lvl).Sorted (· ≤ ·)) →
      runFold s reports = some s' →
      ∀ lvl, (s'.sorted_results lvl).Sorted (· ≤ ·) := by
  intro reports
  induction reports with
  | nil =>
    intro s s' hinv h
    rw [runFold] at h
    cases Option.some_inj.mp h
    exact hinv
  | cons p rest ih =>
    intro s s' hinv h
    obtain ⟨t, r⟩ := p
    rw [runFold] at h
    cases ho : s.on_trial_result t r with
    | none => rw [ho] at h; cases h
    | some o =>
      rw [ho] at h
      exact ih o.state s' (step_preserves_sorted hinv ho) h

/-! ### C3 -/

/-- C3.  From any state whose level lists are sorted ascending (as the
freshly constructed wrapper's are): every successful `on_trial_result` call
leaves every level list sorted ascending; every successful run of calls
does as well; and inserting `n` values one at a time through the
searchsorted-plus-insert procedure produces exactly the result of sorting
all `n` values at once. -/
theorem sorted_results_invariant {σ : Type} (s : MedianStoppingRule σ)
    (hinv : ∀ lvl, (s.sorted_results lvl).Sorted (· ≤ ·)) :
    (∀ (t : Trial) (r : Result) (o : StepOutput σ),
      s.on_trial_result t r = some o →
      ∀ lvl, (o.state.sorted_results lvl).Sorted (· ≤ ·)) ∧
    (∀ (reports : List (Trial × Result)) (s' : MedianStoppingRule σ),
      runFold s reports = some s' →
      ∀ lvl, (s'.sorted_results lvl).Sorted (· ≤ ·)) ∧
    (∀ vs : List ℚ, foldInsert vs = List.insertionSort (· ≤ ·) vs) :=
  ⟨fun _ _ _ h => step_preserves_sorted hinv h,
   fun reports s' h => runFold_preserves_sorted reports s s' hinv h,
   foldInsert_eq_insertionSort⟩

/-- C3 witness: the invariant applied to a concrete call and run, and the
fold-equals-sort property at a concrete value list. -/
theorem sorted_results_invariant_witness :
    ((stepCore (c2State false) ⟨1⟩ (rep 10 2) 10 2).state.sorted_results 2).Sorted (· ≤ ·) ∧
    ((stepCore (c2State false) ⟨1⟩ (rep 10 2) 10 2).state.sorted_results 3).Sorted (· ≤ ·) ∧
    foldInsert [3, 1, 2] = List.insertionSort (· ≤ ·) [3, 1, 2] :=
  ⟨(sorted_results_invariant (c2State false) (fun _ => List.sorted_nil)).1
      ⟨1⟩ (rep 10 2) (stepCore (c2State false) ⟨1⟩ (rep 10 2) 10 2) rfl 2,
   (sorted_results_invariant (c2State false) (fun _ => List.sorted_nil)).2.1
      [(⟨1⟩, rep 10 2)] (stepCore (c2State false) ⟨1⟩ (rep 10 2) 10 2).state rfl 3,
   (sorted_results_invariant (c2State false) (fun _ => List.sorted_nil)).2.2
      [3, 1, 2]⟩

end SyneTune

namespace SyneTune

/-! ### C4 -/

/-- The sign-adjusted raw metric values reported by trial `tid` over a
report sequence, in report order (the entries appended to
`trial_to_results[tid]`). -/
def trialRawValues (key mode0 : String) (tid : Nat)
    (reports : List (Trial × Result)) : List ℚ :=
  reports.filterMap (fun p =>
    if p.1.trial_id = tid then (p.2.get key).map (signAdjust mode0) else none)

lemma trialRawValues_cons_eq {key mode0 : String} {tid : Nat} {t : Trial}
    {r : Result} {m0 : ℚ} {rest : List (Trial × Result)}
    (hm : r.get key = some m0) (htid : t.trial_id = tid) :
    trialRawValues key mode0 tid ((t, r) :: rest)
      = signAdjust mode0 m0 :: trialRawValues key mode0 tid rest := by
  simp [trialRawValues, List.filterMap_cons, htid, hm]

lemma trialRawValues_cons_ne {key mode0 : String} {tid : Nat} {t : Trial}
    {r : Result} {rest : List (Trial × Result)} (htid : ¬ t.trial_id = tid) :
    trialRawValues key mode0 tid ((t, r) :: rest)
      = trialRawValues key mode0 tid rest := by
  simp [trialRawValues, List.filterMap_cons, htid]

/-- A successful run preserves the wrapper configuration and accumulates
exactly the sign-adjusted raw reports of each trial in
`trial_to_results` (when `running_average` is set; otherwise it never
touches `trial_to_results`). -/
lemma runFold_config_and_history {σ : Type} (key : String) (mode0 : String) :
    ∀ (reports : List (Trial × Result)) (s s' : MedianStoppingRule σ),
      s.metric = some key → s.mode = mode0 →
      runFold s reports = some s' →
      s'.metric = some key ∧ s'.mode = mode0 ∧
      s'.running_average = s.running_average ∧
      s'.resource_attr = s.resource_attr ∧
      (s.running_average = true →
        ∀ tid, s'.trial_to_results tid =
          s.trial_to_results tid ++ trialRawValues key mode0 tid reports) ∧
      (s.running_average = false →
        s'.trial_to_results = s.trial_to_results) := by
  intro reports
  induction reports with
  | nil =>
    intro s s' hp hq h
    rw [runFold] at h
    cases Option.some_inj.mp h
    exact ⟨hp, hq, rfl, rfl,
      fun _ tid => by rw [trialRawValues, List.filterMap_nil, List.append_nil],
      fun _ => rfl⟩
  | cons p rest ih =>
    intro s s' hp hq h
    obtain ⟨t, r⟩ := p
    rw [runFold] at h
    cases ho : s.on_trial_result t r with
    | none => rw [ho] at h; cases h
    | some o =>
      rw [ho] at h
      obtain ⟨key2, m0, ts, hk2, hm2, ht2, hoeq⟩ := on_trial_result_some_inv ho
      have hkey : key2 = key := by
        rw [hp] at hk2
        exact (Option.some_inj.mp hk2).symm
      rw [hkey] at hm2
      obtain ⟨c1, c2, c3, c4, c5, c6, c7, c8⟩ := stepCore_config s t r m0 ts
      have hmet : o.state.metric = some key := by rw [hoeq, c1, hp]
      have hmo : o.state.mode = mode0 := by rw [hoeq, c2, hq]
      obtain ⟨d1, d2, d3, d4, d5, d6⟩ := ih o.state s' hmet hmo h
      have hra : o.state.running_average = s.running_average := by rw [hoeq, c4]
      refine ⟨d1, d2, by rw [d3, hra], by rw [d4, hoeq, c3], ?_, ?_⟩
      · intro hsra tid
        have h5 := d5 (by rw [hra, hsra]) tid
        rw [h5, hoeq, stepCore_state_trial_to_results, if_pos hsra]
        by_cases htid : t.trial_id = tid
        · rw [htid, Function.update_same, hq,
            trialRawValues_cons_eq hm2 htid, List.append_assoc]
          rfl
        · rw [Function.update_noteq (fun hh => htid hh.symm),
            trialRawValues_cons_ne htid]
      · intro hsra
        have h6 := d6 (by rw [hra, hsra])
        rw [h6, hoeq, stepCore_state_trial_to_results, if_neg (by rw [hsra]; exact Bool.false_ne_true)]

/-- C4.  Starting from a freshly constructed wrapper, run any report
sequence; at the next report of trial `t` with raw value `m0` (its k-th
report overall), the value used for the sorted insertion and the rank
computation (`o.value`, the source's `new_metric`) is: with
`running_average`, the arithmetic mean of the trial's first k sign-adjusted
raw reported values (the k-1 previous ones, in report order keyed by
`trial_id`, plus the current one); without it, the k-th sign-adjusted raw
report itself. -/
theorem running_average_effective_value {σ : Type} (sched : TrialScheduler σ)
    (st0 : σ) (attr : String) (ra : Bool) (key : String) (gt : Option ℚ)
    (gp : Option Nat) (c : ℚ) (reports : List (Trial × Result))
    (s' : MedianStoppingRule σ) (t : Trial) (r : Result) (o : StepOutput σ)
    (m0 : ℚ)
    (hrun : runFold (MedianStoppingRule.init sched st0 attr ra (some key) gt gp c)
      reports = some s')
    (hm : r.get key = some m0)
    (hcall : s'.on_trial_result t r = some o) :
    o.value =
      if ra then
        listMean (trialRawValues key (sched.metric_mode st0) t.trial_id reports
          ++ [signAdjust (sched.metric_mode st0) m0])
      else signAdjust (sched.metric_mode st0) m0 := by
  obtain ⟨d1, d2, d3, d4, d5, d6⟩ :=
    runFold_config_and_history key (sched.metric_mode st0) reports
      (MedianStoppingRule.init sched st0 attr ra (some key) gt gp c) s' rfl rfl hrun
  obtain ⟨key2, m02, ts, hk2, hm2, ht2, hoeq⟩ := on_trial_result_some_inv hcall
  have hkey : key2 = key := by
    rw [d1] at hk2
    exact (Option.some_inj.mp hk2).symm
  rw [hkey] at hm2
  have hm0 : m02 = m0 := Option.some_inj.mp (hm2.symm.trans hm)
  rw [hm0] at hoeq
  rw [hoeq, stepCore_value, stepValue, MedianStoppingRule.effectiveValue, d2]
  have hra : s'.running_average = ra := d3
  rw [hra]
  cases ra with
  | true =>
    rw [if_pos rfl, if_pos rfl]
    have h5 : s'.trial_to_results t.trial_id =
        trialRawValues key (sched.metric_mode st0) t.trial_id reports :=
      (d5 rfl t.trial_id).trans (List.nil_append _)
    rw [h5]
  | false =>
    rw [if_neg (by exact Bool.false_ne_true), if_neg (by exact Bool.false_ne_true)]

end SyneTune

namespace SyneTune

/-- C4 witness: with running average on, trial 1 first reports 10 and then
30 (both at level 2); the second call's inserted value is the mean
`(10 + 30) / 2 = 20` of its two sign-adjusted raw reports. -/
theorem running_average_effective_value_witness :
    (rep 30 2).get "m" = some 30 ∧
    runFold (c2State true) [(⟨1⟩, rep 10 2)]
      = some ((stepCore (c2State true) ⟨1⟩ (rep 10 2) 10 2).state) ∧
    ((stepCore (c2State true) ⟨1⟩ (rep 10 2) 10 2).state.on_trial_result
        ⟨1⟩ (rep 30 2)).map StepOutput.value =
      some (listMean (trialRawValues "m" "min" 1 [(⟨1⟩, rep 10 2)]
        ++ [signAdjust "min" 30])) ∧
    listMean (trialRawValues "m" "min" 1 [(⟨1⟩, rep 10 2)]
        ++ [signAdjust "min" 30]) = 20 := by
  have hk : (stepCore (c2State true) ⟨1⟩ (rep 10 2) 10 2).state.metric = some "m" :=
    (stepCore_config (c2State true) ⟨1⟩ (rep 10 2) 10 2).1
  have hattr : (stepCore (c2State true) ⟨1⟩ (rep 10 2) 10 2).state.resource_attr
      = "epoch" :=
    (stepCore_config (c2State true) ⟨1⟩ (rep 10 2) 10 2).2.2.1
  have hp : (rep 30 2).get "m" = some (30:ℚ) := rfl
  have ht : (rep 30 2).get
      (stepCore (c2State true) ⟨1⟩ (rep 10 2) 10 2).state.resource_attr
      = some 2 := by
    rw [hattr]
    rfl
  have ho2 := on_trial_result_eq_some
    (stepCore (c2State true) ⟨1⟩ (rep 10 2) 10 2).state ⟨1⟩ (rep 30 2) hk hp ht
  refine ⟨rfl, rfl, ?_, ?_⟩
  · rw [ho2, Option.map_some',
      running_average_effective_value
        (constSched "min" (some "m") SchedulerDecision.PAUSE) () "epoch" true
        "m" (some 1) (some 5) (1/2) [(⟨1⟩, rep 10 2)]
        (stepCore (c2State true) ⟨1⟩ (rep 10 2) 10 2).state ⟨1⟩ (rep 30 2)
        (stepCore (stepCore (c2State true) ⟨1⟩ (rep 10 2) 10 2).state
          ⟨1⟩ (rep 30 2) 30 2)
        30 rfl hp ho2]
    rfl
  · norm_num [trialRawValues, listMean, signAdjust_min, rep_get_m,
      List.filterMap]

end SyneTune

namespace SyneTune

/-! ### C5 -/

lemma stepCore_index {σ : Type} (s : MedianStoppingRule σ) (t : Trial)
    (r : Result) (m0 ts : ℚ) :
    (stepCore s t r m0 ts).index = stepIndex s t m0 ts := by
  rw [stepCore]; split <;> rfl

lemma stepCore_rank {σ : Type} (s : MedianStoppingRule σ) (t : Trial)
    (r : Result) (m0 ts : ℚ) :
    (stepCore s t r m0 ts).rank = stepRank s t m0 ts := by
  rw [stepCore]; split <;> rfl

/-- Mode-"max" wrapper over a PAUSE-returning scheduler, no running
average, metric "m", resource key "epoch". -/
def c5State : MedianStoppingRule Unit :=
  MedianStoppingRule.init (constSched "max" (some "m") SchedulerDecision.PAUSE)
    () "epoch" false (some "m") (some 1) (some 5) (1/2)

/-- C5 counterexample: under mode "max", trial 1 records raw 1 at level 2
(stored internally as -1); trial 2 then reports raw 2, strictly higher than
every sibling recorded at that level (1 < 2); its internal value -2 is
inserted at the beginning of the ascending array, and the computed
normalized rank is 0, not 1.0. -/
theorem max_mode_best_rank_counterexample :
    ((c5State.on_trial_result ⟨1⟩ (rep 1 2)).bind
      (fun o1 => (o1.state.on_trial_result ⟨2⟩ (rep 2 2)).map
        (fun o2 => (o1.state.sorted_results 2, o2.value, o2.index, o2.rank)))) =
      some ([-1], -2, 0, 0) ∧
    (1:ℚ) < 2 ∧ ¬ ((0:ℚ) = 1) := by
  constructor
  · norm_num only [MedianStoppingRule.on_trial_result, c5State,
      MedianStoppingRule.init, stepCore, stepCont, postState, stepIndex, stepLevel,
      stepRank, stepValue, signAdjust_max, rep_get_m, rep_get_epoch, constSched,
      searchsorted, insertAt, MedianStoppingRule.effectiveValue,
      MedianStoppingRule.grace_condition, Function.update_same, Function.update_noteq,
      listMean, Option.bind_eq_bind, Option.some_bind, Option.map_some',
      List.take_succ_cons, List.take_zero, List.drop_succ_cons, List.drop_zero,
      List.cons_append, List.nil_append, List.length_cons, List.length_nil,
      List.sum_cons, List.sum_nil, List.map_cons, List.map_nil,
      Bool.or_eq_true, decide_eq_true_eq, if_true, if_false, or_true, true_or,
      Bool.false_eq_true, Bool.true_eq_false, eq_self_iff_true,
      decide_True, decide_False, Bool.or_true, Bool.true_or, Bool.or_false,
      Bool.false_or, false_or, or_false, ite_self, Nat.cast_ofNat, Nat.cast_one,
      Nat.cast_zero]
  · norm_num

/-- C5 (amended).  Under mode "max", when the observation is used directly
(no running average, or this is the trial's first report), a trial whose
raw reported metric is strictly higher than every sibling recorded at the
same resource level (internally: its negated value lies strictly below
every recorded internal value) obtains `normalized_rank == 0.0`: the
sign-flip maps the best raw value to the lowest internal value, so the best
trial is inserted at the beginning (index 0) of the ascending array. -/
theorem max_mode_best_rank_zero {σ : Type} (s : MedianStoppingRule σ)
    (t : Trial) (r : Result) (key : String) (m0 ts : ℚ) (o : StepOutput σ)
    (hmode : s.mode = "max") (hk : s.metric = some key)
    (hm : r.get key = some m0) (ht : r.get s.resource_attr = some ts)
    (hra : s.running_average = false ∨ s.trial_to_results t.trial_id = [])
    (hbest : ∀ w ∈ s.sorted_results ts, -m0 < w)
    (h : s.on_trial_result t r = some o) :
    o.value = -m0 ∧ o.index = 0 ∧ o.rank = 0 := by
  obtain ⟨key2, m02, ts2, hk2, hm2, ht2, hoeq⟩ := on_trial_result_some_inv h
  have hkey : key2 = key := by
    rw [hk] at hk2
    exact (Option.some_inj.mp hk2).symm
  rw [hkey] at hm2
  have hm0 : m02 = m0 := Option.some_inj.mp (hm2.symm.trans hm)
  rw [hm0] at hoeq
  have hts : ts2 = ts := Option.some_inj.mp (ht2.symm.trans ht)
  rw [hts] at hoeq
  have hv : stepValue s t m0 = -m0 := by
    rcases hra with h1 | h1 <;>
      simp [stepValue, MedianStoppingRule.effectiveValue, hmode, signAdjust,
        h1, listMean_singleton]
  have hidx : stepIndex s t m0 ts = 0 := by
    rw [stepIndex, hv]
    exact searchsorted_eq_zero_of_forall_lt hbest
  have hrank : stepRank s t m0 ts = 0 := by
    rw [stepRank, hidx]
    simp
  exact ⟨by rw [hoeq, stepCore_value, hv],
    by rw [hoeq, stepCore_index, hidx],
    by rw [hoeq, stepCore_rank, hrank]⟩

end SyneTune

namespace SyneTune

/-- C5 witness: the amended statement applied to the concrete mode-"max"
instance of the counterexample — the best trial's internal value -2 is
inserted at index 0 with rank 0. -/
theorem max_mode_best_rank_zero_witness :
    (stepCore (stepCore c5State ⟨1⟩ (rep 1 2) 1 2).state ⟨2⟩ (rep 2 2) 2 2).value = -2 ∧
    (stepCore (stepCore c5State ⟨1⟩ (rep 1 2) 1 2).state ⟨2⟩ (rep 2 2) 2 2).index = 0 ∧
    (stepCore (stepCore c5State ⟨1⟩ (rep 1 2) 1 2).state ⟨2⟩ (rep 2 2) 2 2).rank = 0 := by
  have hmode : (stepCore c5State ⟨1⟩ (rep 1 2) 1 2).state.mode = "max" :=
    (stepCore_config c5State ⟨1⟩ (rep 1 2) 1 2).2.1
  have hk : (stepCore c5State ⟨1⟩ (rep 1 2) 1 2).state.metric = some "m" :=
    (stepCore_config c5State ⟨1⟩ (rep 1 2) 1 2).1
  have hattr : (stepCore c5State ⟨1⟩ (rep 1 2) 1 2).state.resource_attr = "epoch" :=
    (stepCore_config c5State ⟨1⟩ (rep 1 2) 1 2).2.2.1
  have hm : (rep 2 2).get "m" = some (2:ℚ) := rfl
  have ht : (rep 2 2).get (stepCore c5State ⟨1⟩ (rep 1 2) 1 2).state.resource_attr
      = some 2 := by
    rw [hattr]
    rfl
  have hra : (stepCore c5State ⟨1⟩ (rep 1 2) 1 2).state.running_average = false :=
    (stepCore_config c5State ⟨1⟩ (rep 1 2) 1 2).2.2.2.1
  have hlist : (stepCore c5State ⟨1⟩ (rep 1 2) 1 2).state.sorted_results 2 = [-1] := by
    norm_num [stepCore_state_sorted_results, stepLevel, stepIndex, stepValue,
      c5State, MedianStoppingRule.init, constSched,
      MedianStoppingRule.effectiveValue, signAdjust, searchsorted, insertAt,
      Function.update_same, listMean]
  have hbest : ∀ w ∈ (stepCore c5State ⟨1⟩ (rep 1 2) 1 2).state.sorted_results 2,
      -(2:ℚ) < w := by
    rw [hlist]
    intro w hw
    rw [List.mem_singleton] at hw
    rw [hw]
    norm_num
  have hcall := on_trial_result_eq_some
    (stepCore c5State ⟨1⟩ (rep 1 2) 1 2).state ⟨2⟩ (rep 2 2) hk hm ht
  exact max_mode_best_rank_zero (stepCore c5State ⟨1⟩ (rep 1 2) 1 2).state
    ⟨2⟩ (rep 2 2) "m" 2 2
    (stepCore (stepCore c5State ⟨1⟩ (rep 1 2) 1 2).state ⟨2⟩ (rep 2 2) 2 2)
    hmode hk hm ht (Or.inl hra) hbest hcall

end SyneTune

namespace SyneTune

/-! ### C10 -/

lemma stepCore_delegated_cases {σ : Type} (s : MedianStoppingRule σ)
    (t : Trial) (r : Result) (m0 ts : ℚ) :
    (stepCore s t r m0 ts).delegated = some r ∨
    (stepCore s t r m0 ts).delegated = none := by
  rw [stepCore]
  split
  · exact Or.inl rfl
  · exact Or.inr rfl

/-- C10.  Whenever `on_trial_result` delegates, the result mapping handed
to the wrapped scheduler is the very mapping the wrapper received — every
key-value pair unchanged.  The mode-"max" negation (`new_metric *= -1`
rebinds a local) and the running-average replacement only affect the
wrapper's internal copy `new_metric`, never the input dictionary. -/
theorem delegated_result_unchanged {σ : Type} (s : MedianStoppingRule σ)
    (t : Trial) (r : Result) (o : StepOutput σ) (r2 : Result)
    (h : s.on_trial_result t r = some o) (hd : o.delegated = some r2) :
    r2 = r ∧ ∀ k, r2.get k = r.get k := by
  obtain ⟨key, m0, ts, hk, hm, ht, hoeq⟩ := on_trial_result_some_inv h
  rcases stepCore_delegated_cases s t r m0 ts with hc | hc
  · rw [hoeq, hc] at hd
    have : r = r2 := Option.some_inj.mp hd
    exact ⟨this.symm, fun k => by rw [this]⟩
  · rw [hoeq, hc] at hd
    cases hd

/-- C10 witness: the concrete delegating call of `c1o` passes the original
report `rep 10 2` through unchanged. -/
theorem delegated_result_unchanged_witness :
    c1o.delegated = some (rep 10 2) ∧ (rep 10 2 : Result) = rep 10 2 ∧
    (rep 10 2 : Result).get "m" = (rep 10 2).get "m" := by
  have hdel : c1o.delegated = some (rep 10 2) := by
    norm_num only [c1o, c1s, stepCore, stepCont, postState, stepIndex, stepLevel,
      stepRank, stepValue, signAdjust_min, rep_get_m, rep_get_epoch, constSched,
      MedianStoppingRule.init, searchsorted, insertAt,
      MedianStoppingRule.effectiveValue, MedianStoppingRule.grace_condition,
      Function.update_same, listMean, List.take_zero, List.drop_zero,
      List.nil_append, List.length_cons, List.length_nil,
      Bool.or_eq_true, decide_eq_true_eq, if_true, if_false, or_true, true_or,
      Bool.false_eq_true, Bool.true_eq_false, eq_self_iff_true,
      decide_True, decide_False, Bool.or_true, Bool.true_or, Bool.or_false,
      Bool.false_or, false_or, or_false, ite_self, Nat.cast_ofNat, Nat.cast_one,
      Nat.cast_zero]
  have happ := delegated_result_unchanged c1s ⟨1⟩ (rep 10 2) c1o (rep 10 2)
    rfl hdel
  exact ⟨hdel, happ.1, happ.2 "m"⟩

end SyneTune

namespace SyneTune

/-! ### C9 -/

/-- Sibling reports for the C9 runs: trials 2–6 report 7 at level 2. -/
def c9Siblings : List (Trial × Result) :=
  [(⟨2⟩, rep 7 2), (⟨3⟩, rep 7 2), (⟨4⟩, rep 7 2), (⟨5⟩, rep 7 2),
   (⟨6⟩, rep 7 2)]

set_option maxHeartbeats 4000000 in
/-- C9 counterexample (running average on): in run A trial 1 first reports
0 at level 0 (inside grace time) and then 10 at level 2; in run B trial 1
reports 10 at level 2 directly.  Before the final call both runs have the
same sibling values `[7,7,7,7,7]` recorded at level 2, the same grace
parameters, and the same current reported value 10 — yet run A delegates
(effective value is the running mean 5, rank 0) while run B stops
(effective value 10, rank 5/6).  The verdict therefore also depends on the
trial's own earlier reports at other levels, not only on the stated
inputs. -/
theorem verdict_history_counterexample :
    (runFold (c2State true) (c9Siblings ++ [(⟨1⟩, rep 0 0)])).bind
        (fun sA => (sA.on_trial_result ⟨1⟩ (rep 10 2)).map
          (fun o => (sA.sorted_results 2, o.value, o.rank, o.delegated.isNone))) =
      some ([7, 7, 7, 7, 7], 5, 0, false) ∧
    (runFold (c2State true) c9Siblings).bind
        (fun sB => (sB.on_trial_result ⟨1⟩ (rep 10 2)).map
          (fun o => (sB.sorted_results 2, o.value, o.rank, o.delegated.isNone))) =
      some ([7, 7, 7, 7, 7], 10, 5/6, true) ∧
    ¬ (false = true) := by
  refine ⟨?_, ?_, by norm_num⟩ <;>
    norm_num only [runFold, MedianStoppingRule.on_trial_result, c2State, c9Siblings,
      MedianStoppingRule.init, stepCore, stepCont, postState, stepIndex, stepLevel,
      stepRank, stepValue, signAdjust_min, rep_get_m, rep_get_epoch, constSched,
      searchsorted, insertAt, MedianStoppingRule.effectiveValue,
      MedianStoppingRule.grace_condition, Function.update_same, Function.update_noteq,
      listMean, Option.bind_eq_bind, Option.some_bind, Option.map_some',
      List.take_succ_cons, List.take_zero, List.drop_succ_cons, List.drop_zero,
      List.cons_append, List.nil_append, List.length_cons, List.length_nil,
      List.sum_cons, List.sum_nil, List.map_cons, List.map_nil,
      Bool.or_eq_true, decide_eq_true_eq, if_true, if_false, or_true, true_or,
      Bool.false_eq_true, Bool.true_eq_false, eq_self_iff_true,
      decide_True, decide_False, Bool.or_true, Bool.true_or, Bool.or_false,
      Bool.false_or, false_or, or_false, ite_self, Nat.cast_ofNat, Nat.cast_one,
      Nat.cast_zero, Option.isNone_some, Option.isNone_none]

/-- C9 (amended).  The stop-or-delegate verdict (together with the
insertion index, the rank and the effective value) is a deterministic
function of the wrapper configuration, the trial's own recorded history
(through which the running average folds all of its earlier reports), and
the sibling values recorded at the reported resource level before the
call; two wrappers agreeing on those — whatever their wrapped schedulers
and any other recorded data — produce the same verdict, and, the state
being threaded functionally, no later observation can affect it. -/
theorem verdict_deterministic {σ1 σ2 : Type} (s1 : MedianStoppingRule σ1)
    (s2 : MedianStoppingRule σ2) (t : Trial) (r : Result)
    (hmetric : s1.metric = s2.metric) (hmode : s1.mode = s2.mode)
    (hattr : s1.resource_attr = s2.resource_attr)
    (hra : s1.running_average = s2.running_average)
    (hgt : s1.grace_time = s2.grace_time)
    (hgp : s1.min_samples_required = s2.min_samples_required)
    (hcut : s1.rank_cutoff = s2.rank_cutoff)
    (hhist : s1.trial_to_results t.trial_id = s2.trial_to_results t.trial_id)
    (hlvl : ∀ ts, r.get s1.resource_attr = some ts →
      s1.sorted_results ts = s2.sorted_results ts) :
    (s1.on_trial_result t r).map
        (fun o => (o.index, o.rank, o.value, o.delegated.isNone)) =
      (s2.on_trial_result t r).map
        (fun o => (o.index, o.rank, o.value, o.delegated.isNone)) := by
  cases hk : s1.metric with
  | none =>
    have hk2 : s2.metric = none := by rw [← hmetric]; exact hk
    simp [MedianStoppingRule.on_trial_result, hk, hk2]
  | some key =>
    have hk2 : s2.metric = some key := by rw [← hmetric]; exact hk
    cases hm : r.get key with
    | none => simp [MedianStoppingRule.on_trial_result, hk, hk2, hm]
    | some m0 =>
      cases ht : r.get s1.resource_attr with
      | none =>
        have ht2 : r.get s2.resource_attr = none := by rw [← hattr]; exact ht
        simp [MedianStoppingRule.on_trial_result, hk, hk2, hm, ht, ht2]
      | some ts =>
        have ht2 : r.get s2.resource_attr = some ts := by rw [← hattr]; exact ht
        have hv : stepValue s1 t m0 = stepValue s2 t m0 := by
          rw [stepValue, stepValue, MedianStoppingRule.effectiveValue,
            MedianStoppingRule.effectiveValue, hra, hhist, hmode]
        have hsr : s1.sorted_results ts = s2.sorted_results ts := hlvl ts ht
        have hix : stepIndex s1 t m0 ts = stepIndex s2 t m0 ts := by
          rw [stepIndex, stepIndex, hv, hsr]
        have hlv : stepLevel s1 t m0 ts = stepLevel s2 t m0 ts := by
          rw [stepLevel, stepLevel, hv, hsr, hix]
        have hrk : stepRank s1 t m0 ts = stepRank s2 t m0 ts := by
          rw [stepRank, stepRank, hix, hlv]
        have hgr : (postState s1 t m0 ts).grace_condition ts
            = (postState s2 t m0 ts).grace_condition ts := by
          rw [MedianStoppingRule.grace_condition,
            MedianStoppingRule.grace_condition]
          simp only [postState, Function.update_same]
          rw [hgp, hgt, hlv]
        have hcont : stepCont s1 t m0 ts = stepCont s2 t m0 ts := by
          rw [stepCont, stepCont, hgr, hrk, hcut]
        rw [on_trial_result_eq_some s1 t r hk hm ht,
          on_trial_result_eq_some s2 t r hk2 hm ht2,
          Option.map_some', Option.map_some', stepCore, stepCore, hcont]
        simp only [apply_ite StepOutput.index, apply_ite StepOutput.rank,
          apply_ite StepOutput.value, apply_ite StepOutput.delegated,
          apply_ite Option.isNone]
        rw [hix, hrk, hv]

/-- C9 witness: two wrappers with identical configuration and recorded
data but different wrapped schedulers (PAUSE- vs CONTINUE-returning)
produce the same verdict tuple on the same call. -/
theorem verdict_deterministic_witness :
    ((c2State true).on_trial_result ⟨1⟩ (rep 10 2)).map
        (fun o => (o.index, o.rank, o.value, o.delegated.isNone)) =
      ((MedianStoppingRule.init
          (constSched "min" (some "m") SchedulerDecision.CONTINUE) ()
          "epoch" true (some "m") (some 1) (some 5) (1/2)).on_trial_result
          ⟨1⟩ (rep 10 2)).map
        (fun o => (o.index, o.rank, o.value, o.delegated.isNone)) :=
  verdict_deterministic (c2State true)
    (MedianStoppingRule.init
      (constSched "min" (some "m") SchedulerDecision.CONTINUE) ()
      "epoch" true (some "m") (some 1) (some 5) (1/2))
    ⟨1⟩ (rep 10 2) rfl rfl rfl rfl rfl rfl rfl rfl (fun _ _ => rfl)

end SyneTune
